import Mathlib

/-!
Verification of the revision-resolution layer of `src/src/utils.c`
(`resolve_refish` and `ref_to_commit`).

The C code orchestrates calls into an external version-control library
(name lookup, revision-expression lookup, object peeling).  Those
collaborators are modelled here: the peeling engine is modelled from the
spec (section 4.3), name lookup (`git_reference_dwim`) and expression
lookup (`git_revparse_single`) are abstract read-only query functions
carried by the repository snapshot.  The orchestration logic of
`resolve_refish` and `ref_to_commit` is translated line by line from the
C source.
-/

set_option autoImplicit false

namespace Gert

/-- `ObjectKind`: the four kinds of objects in the store. -/
inductive ObjectKind where
  | Commit
  | Tree
  | Blob
  | Tag
  deriving DecidableEq, Repr

/-- An object in the object store: an identifier, a kind, and (where the
kind uses them) the identifier of a tag's target object and of a commit's
root tree. -/
structure GitObject where
  id : Nat
  kind : ObjectKind
  target : Nat
  tree : Nat
  deriving DecidableEq, Repr

/-- Failure modes of the peeling engine (spec section 4.3). -/
inductive PeelError where
  | depthExceeded
  | targetMissing
  | badKind (from_ : ObjectKind) (to_ : ObjectKind)
  deriving DecidableEq, Repr

/-- Modelled from the spec: the Peeling Engine (section 4.3), standing in
for the external library's object-peel operation, which is not part of
this repository's sources.  If the object already has the target kind it
is returned unchanged; a tag is dereferenced and peeling retries, with a
depth bound `fuel` guarding against cyclic tag chains; a commit peels to
its root tree; every other kind combination fails. -/
def peel (store : Nat → Option GitObject) :
    Nat → GitObject → ObjectKind → Except PeelError GitObject
  | fuel, obj, target =>
    if obj.kind = target then .ok obj
    else if obj.kind = .Tag then
      match fuel with
      | 0 => .error .depthExceeded
      | f + 1 =>
        match store obj.target with
        | some t => peel store f t target
        | none => .error .targetMissing
    else if obj.kind = .Commit ∧ target = .Tree then
      match store obj.tree with
      | some t => .ok t
      | none => .error .targetMissing
    else .error (.badKind obj.kind target)

/-- A snapshot of the repository state as `resolve_refish` consumes it:
the object store, the reference-name lookup (`git_reference_dwim`,
returning the resolved reference's target object id), the
revision-expression lookup (`git_revparse_single`, returning the terminal
object of the expression), and the peel depth bound. -/
structure Repo where
  store : Nat → Option GitObject
  dwim : String → Option Nat
  revparse : String → Option GitObject
  fuel : Nat

/-- `git_reference_peel`: resolve the reference's target object in the
store, then peel it to the requested kind. -/
def reference_peel (repo : Repo) (targetId : Nat) (k : ObjectKind) :
    Except PeelError GitObject :=
  match repo.store targetId with
  | some o => peel repo.store repo.fuel o k
  | none => .error .targetMissing

/-- The R values `resolve_refish` may receive: a character vector, an
integer vector, or R's NULL.  `Rf_isString` holds only of `strVec`. -/
inductive SEXP where
  | strVec (xs : List String)
  | intVec (xs : List Int)
  | nilValue
  deriving DecidableEq, Repr

/-- The errors `resolve_refish`/`ref_to_commit` raise via `Rf_error` /
`bail_if`, as structured values: the input is not a non-empty string
vector; the resolved object is not a commit and cannot be peeled to one
(carrying the object's kind and the expression); the expression names
nothing (carrying the expression); the final commit lookup of
`ref_to_commit` failed. -/
inductive ResolveError where
  | notAString
  | wrongKind (actual : ObjectKind) (expr : String)
  | notFound (expr : String)
  | lookupFailed (id : Nat)
  deriving DecidableEq, Repr

/-- The fallback branch of `resolve_refish` (utils.c lines 46-59): look
the string up as a revision expression; a commit is returned as is; any
other object is peeled to a commit, and if that fails the
"Reference is a %s and does not point to a commit" error is raised with
the object's kind and the expression; if the expression lookup itself
fails, the "Failed to find git reference" error is raised. -/
def resolve_fallback (repo : Repo) (str : String) :
    Except ResolveError GitObject :=
  match repo.revparse str with
  | some obj =>
    if obj.kind = .Commit then .ok obj
    else
      match peel repo.store repo.fuel obj .Commit with
      | .ok peeled => .ok peeled
      | .error _ => .error (.wrongKind obj.kind str)
  | none => .error (.notFound str)

/-- `resolve_refish` (utils.c lines 34-60): reject non-string or empty
inputs; take the first element; try the name fast path
(`git_reference_dwim` then `git_reference_peel` to commit); on any
failure of the fast path, fall back to revision-expression lookup. -/
def resolve_refish (repo : Repo) (string : SEXP) :
    Except ResolveError GitObject :=
  match string with
  | .strVec (str :: _) =>
    match repo.dwim str with
    | some t =>
      match reference_peel repo t .Commit with
      | .ok obj => .ok obj
      | .error _ => resolve_fallback repo str
    | none => resolve_fallback repo str
  | _ => .error .notAString

/-- `git_commit_lookup`: fetch the object with the given id from the
store, succeeding only if it is a commit. -/
def commit_lookup (repo : Repo) (id : Nat) : Option GitObject :=
  match repo.store id with
  | some o => if o.kind = .Commit then some o else none
  | none => none

/-- `ref_to_commit` (utils.c lines 62-68): resolve the input, then look
the resolved object's id up as a commit, failing via `bail_if` if the
lookup fails. -/
def ref_to_commit (repo : Repo) (ref : SEXP) :
    Except ResolveError GitObject :=
  match resolve_refish repo ref with
  | .error e => .error e
  | .ok revision =>
    match commit_lookup repo revision.id with
    | some commit => .ok commit
    | none => .error (.lookupFailed revision.id)

/-! State-passing rendering of the same routines, used to express that
resolution never mutates the repository state: each external call is a
read-only query (the external guarantee the spec requires of the store
and the reference resolver), and the orchestration threads the state
through every step. -/

/-- `git_reference_dwim` as a state transformer. -/
def dwimS (str : String) (st : Repo) : Option Nat × Repo :=
  (st.dwim str, st)

/-- `git_reference_peel` as a state transformer. -/
def reference_peelS (t : Nat) (k : ObjectKind) (st : Repo) :
    Except PeelError GitObject × Repo :=
  (reference_peel st t k, st)

/-- `git_revparse_single` as a state transformer. -/
def revparseS (str : String) (st : Repo) : Option GitObject × Repo :=
  (st.revparse str, st)

/-- `git_object_peel` as a state transformer. -/
def object_peelS (obj : GitObject) (k : ObjectKind) (st : Repo) :
    Except PeelError GitObject × Repo :=
  (peel st.store st.fuel obj k, st)

/-- `git_commit_lookup` as a state transformer. -/
def commit_lookupS (id : Nat) (st : Repo) : Option GitObject × Repo :=
  (commit_lookup st id, st)

/-- The fallback branch of `resolve_refish`, threading the repository
state through each external call. -/
def resolve_fallbackS (str : String) (st : Repo) :
    Except ResolveError GitObject × Repo :=
  match revparseS str st with
  | (some obj, st1) =>
    if obj.kind = .Commit then (.ok obj, st1)
    else
      match object_peelS obj .Commit st1 with
      | (.ok peeled, st2) => (.ok peeled, st2)
      | (.error _, st2) => (.error (.wrongKind obj.kind str), st2)
  | (none, st1) => (.error (.notFound str), st1)

/-- `resolve_refish`, threading the repository state through each
external call. -/
def resolve_refishS (x : SEXP) (st : Repo) :
    Except ResolveError GitObject × Repo :=
  match x with
  | .strVec (str :: _) =>
    match dwimS str st with
    | (some t, st1) =>
      match reference_peelS t .Commit st1 with
      | (.ok obj, st2) => (.ok obj, st2)
      | (.error _, st2) => resolve_fallbackS str st2
    | (none, st1) => resolve_fallbackS str st1
  | _ => (.error .notAString, st)

/-- `ref_to_commit`, threading the repository state through each
external call. -/
def ref_to_commitS (x : SEXP) (st : Repo) :
    Except ResolveError GitObject × Repo :=
  match resolve_refishS x st with
  | (.ok revision, st1) =>
    match commit_lookupS revision.id st1 with
    | (some commit, st2) => (.ok commit, st2)
    | (none, st2) => (.error (.lookupFailed revision.id), st2)
  | (.error e, st1) => (.error e, st1)

/-! Concrete repository used to exercise the theorems: a commit (id 1)
whose root tree is id 2, that tree, and an annotated tag (id 3) pointing
at the commit. -/

/-- A commit object with id 1 whose root tree is object 2. -/
def commitObj : GitObject := ⟨1, .Commit, 0, 2⟩

/-- A tree object with id 2. -/
def treeObj : GitObject := ⟨2, .Tree, 0, 0⟩

/-- An annotated tag with id 3 pointing at the commit. -/
def tagObj : GitObject := ⟨3, .Tag, 1, 0⟩

/-- The concrete object store. -/
def store0 : Nat → Option GitObject := fun i =>
  if i = 1 then some commitObj
  else if i = 2 then some treeObj
  else if i = 3 then some tagObj
  else none

/-- A concrete repository snapshot.  The branch literally named
"main~1" exists (dwim finds it) while the expression parser would read
the same string as a suffix expression denoting the tree object; the
name "v1" is a tag reference; "HEAD", "t" and "abc1234^{tree}" are only
found by revision-expression lookup. -/
def repo0 : Repo where
  store := store0
  dwim := fun s =>
    if s = "main~1" then some 1
    else if s = "v1" then some 3
    else none
  revparse := fun s =>
    if s = "main~1" then some treeObj
    else if s = "HEAD" then some commitObj
    else if s = "t" then some treeObj
    else if s = "abc1234^{tree}" then some treeObj
    else none
  fuel := 4

/-! Helper lemmas. -/

/-- Peeling to kind Commit only ever returns commit-kind objects. -/
theorem peel_ok_kind (store : Nat → Option GitObject) :
    ∀ (fuel : Nat) (obj o : GitObject),
      peel store fuel obj .Commit = .ok o → o.kind = .Commit := by
  intro fuel
  induction fuel with
  | zero =>
    intro obj o h
    unfold peel at h
    by_cases hk : obj.kind = ObjectKind.Commit
    · simp [hk] at h
      exact h ▸ hk
    · by_cases ht : obj.kind = ObjectKind.Tag <;> simp [hk, ht] at h
  | succ f ih =>
    intro obj o h
    unfold peel at h
    by_cases hk : obj.kind = ObjectKind.Commit
    · simp [hk] at h
      exact h ▸ hk
    · by_cases ht : obj.kind = ObjectKind.Tag
      · simp [hk, ht] at h
        cases hst : store obj.target with
        | some t =>
          rw [hst] at h
          exact ih t o h
        | none => rw [hst] at h; cases h
      · simp [hk, ht] at h

/-- A successful fallback resolution returns a commit-kind object. -/
theorem resolve_fallback_ok_kind (repo : Repo) (str : String) (o : GitObject)
    (h : resolve_fallback repo str = .ok o) : o.kind = .Commit := by
  unfold resolve_fallback at h
  cases hrev : repo.revparse str with
  | none => rw [hrev] at h; cases h
  | some obj =>
    rw [hrev] at h
    by_cases hk : obj.kind = ObjectKind.Commit
    · simp [hk] at h
      exact h ▸ hk
    · simp [hk] at h
      cases hp : peel repo.store repo.fuel obj .Commit with
      | ok peeled =>
        rw [hp] at h
        simp at h
        exact h ▸ peel_ok_kind repo.store repo.fuel obj peeled hp
      | error e => rw [hp] at h; cases h

/-- A successful reference peel to Commit returns a commit-kind object. -/
theorem reference_peel_ok_kind (repo : Repo) (t : Nat) (o : GitObject)
    (h : reference_peel repo t .Commit = .ok o) : o.kind = .Commit := by
  unfold reference_peel at h
  cases hst : repo.store t with
  | some obj =>
    rw [hst] at h
    exact peel_ok_kind repo.store repo.fuel obj o h
  | none => rw [hst] at h; cases h

/-- Peeling a tree towards a commit always fails. -/
theorem peel_tree_commit_err (store : Nat → Option GitObject) (fuel : Nat)
    (obj : GitObject) (hk : obj.kind = .Tree) :
    peel store fuel obj .Commit = .error (.badKind .Tree .Commit) := by
  unfold peel
  simp [hk]

/-- When dwim fails, `resolve_refish` is the fallback resolution. -/
theorem resolve_refish_of_dwim_none (repo : Repo) (str : String)
    (rest : List String) (h : repo.dwim str = none) :
    resolve_refish repo (.strVec (str :: rest)) = resolve_fallback repo str := by
  simp only [resolve_refish, h]

/-- When the fast-path peel fails, `resolve_refish` is the fallback
resolution. -/
theorem resolve_refish_of_peel_err (repo : Repo) (str : String)
    (rest : List String) (t : Nat) (e : PeelError)
    (h1 : repo.dwim str = some t)
    (h2 : reference_peel repo t .Commit = .error e) :
    resolve_refish repo (.strVec (str :: rest)) = resolve_fallback repo str := by
  simp only [resolve_refish, h1, h2]

/-- When the fast path fully succeeds, `resolve_refish` returns its
object. -/
theorem resolve_refish_of_fast_ok (repo : Repo) (str : String)
    (rest : List String) (t : Nat) (obj : GitObject)
    (h1 : repo.dwim str = some t)
    (h2 : reference_peel repo t .Commit = .ok obj) :
    resolve_refish repo (.strVec (str :: rest)) = .ok obj := by
  simp only [resolve_refish, h1, h2]

/-- The store of the concrete repository is id-consistent. -/
theorem store0_wf : ∀ i o, store0 i = some o → o.id = i := by
  intro i o h
  simp only [store0] at h
  split_ifs at h with h1 h2 h3 <;>
    injection h with h4 <;> subst h4 <;>
    simp_all [commitObj, treeObj, tagObj]

/-- A successful commit lookup returns exactly the stored object. -/
theorem commit_lookup_store (repo : Repo) (i : Nat) (c : GitObject)
    (h : commit_lookup repo i = some c) : repo.store i = some c := by
  unfold commit_lookup at h
  cases hst : repo.store i with
  | some o =>
    rw [hst] at h
    by_cases hk : o.kind = ObjectKind.Commit
    · simp [hk] at h
      rw [h]
    · simp [hk] at h
  | none => rw [hst] at h; cases h

/-- The state-passing fallback agrees with the pure fallback and
preserves the state. -/
theorem resolve_fallbackS_eq (str : String) (st : Repo) :
    resolve_fallbackS str st = (resolve_fallback st str, st) := by
  simp only [resolve_fallbackS, revparseS, object_peelS, resolve_fallback]
  cases hrev : st.revparse str with
  | none => simp
  | some obj =>
    by_cases hk : obj.kind = ObjectKind.Commit
    · simp [hk]
    · simp only [hk, if_neg, reduceIte]
      cases hp : peel st.store st.fuel obj ObjectKind.Commit <;> simp

/-- The state-passing resolver agrees with the pure resolver and
preserves the state. -/
theorem resolve_refishS_eq (x : SEXP) (st : Repo) :
    resolve_refishS x st = (resolve_refish st x, st) := by
  cases x with
  | strVec xs =>
    cases xs with
    | nil => rfl
    | cons str rest =>
      simp only [resolve_refishS, dwimS, reference_peelS, resolve_refish]
      cases hd : st.dwim str with
      | none => simp [resolve_fallbackS_eq]
      | some t =>
        cases hp : reference_peel st t ObjectKind.Commit <;>
          simp [hp, resolve_fallbackS_eq]
  | intVec xs => rfl
  | nilValue => rfl

/-- The state-passing `ref_to_commit` agrees with the pure one and
preserves the state. -/
theorem ref_to_commitS_eq (x : SEXP) (st : Repo) :
    ref_to_commitS x st = (ref_to_commit st x, st) := by
  simp only [ref_to_commitS, commit_lookupS, ref_to_commit, resolve_refishS_eq]
  cases hr : resolve_refish st x with
  | error e => simp
  | ok revision =>
    cases hc : commit_lookup st revision.id <;> simp [hc]

/-- The fallback reports the wrong-kind error when the looked-up object
is not a commit and will not peel to one. -/
theorem resolve_fallback_wrong_kind (repo : Repo) (str : String)
    (obj : GitObject) (e : PeelError)
    (hrev : repo.revparse str = some obj)
    (hkind : obj.kind ≠ ObjectKind.Commit)
    (hpeel : peel repo.store repo.fuel obj .Commit = .error e) :
    resolve_fallback repo str = .error (.wrongKind obj.kind str) := by
  simp [resolve_fallback, hrev, hkind, hpeel]

/-- The fallback reports the not-found error when the expression lookup
fails. -/
theorem resolve_fallback_not_found (repo : Repo) (str : String)
    (hrev : repo.revparse str = none) :
    resolve_fallback repo str = .error (.notFound str) := by
  simp [resolve_fallback, hrev]

/-! The claims. -/

/-- Claim C1: `resolve_refish` first attempts the literal-name fast path
(dwim lookup, then peeling the reference's target to kind Commit); when
that path fully succeeds the fast-path object is returned, independently
of what revision-expression lookup would say, so a reference literally
named with suffix-like characters is resolved as a name before any
suffix interpretation; only if the fast path fails at any point (name not
found, or peel fails) is the result that of the fallback
revision-expression resolution. -/
theorem resolve_refish_name_fast_path_first (repo : Repo) (str : String)
    (rest : List String) :
    (∀ t obj, repo.dwim str = some t →
        reference_peel repo t .Commit = .ok obj →
        resolve_refish repo (.strVec (str :: rest)) = .ok obj ∧
        ∀ f : String → Option GitObject,
          resolve_refish { repo with revparse := f }
            (.strVec (str :: rest)) = .ok obj) ∧
    (repo.dwim str = none →
        resolve_refish repo (.strVec (str :: rest)) =
          resolve_fallback repo str) ∧
    (∀ t e, repo.dwim str = some t →
        reference_peel repo t .Commit = .error e →
        resolve_refish repo (.strVec (str :: rest)) =
          resolve_fallback repo str) := by
  refine ⟨?_, ?_, ?_⟩
  · intro t obj h1 h2
    refine ⟨resolve_refish_of_fast_ok repo str rest t obj h1 h2, ?_⟩
    intro f
    exact resolve_refish_of_fast_ok { repo with revparse := f }
      str rest t obj h1 h2
  · intro h
    exact resolve_refish_of_dwim_none repo str rest h
  · intro t e h1 h2
    exact resolve_refish_of_peel_err repo str rest t e h1 h2

/-- Claim C1 witness: in the concrete repository the branch literally
named "main~1" exists, the expression parser would read the same string
as the tree object, and resolution returns the branch's commit. -/
theorem resolve_refish_name_fast_path_first_witness :
    repo0.revparse "main~1" = some treeObj ∧
    resolve_refish repo0 (.strVec ["main~1"]) = .ok commitObj :=
  ⟨rfl,
    ((resolve_refish_name_fast_path_first repo0 "main~1" []).1
      1 commitObj rfl rfl).1⟩

/-- Claim C2: when the fast path fails, the expression lookup succeeds
with an object that is not a commit, and peeling that object to a commit
fails, `resolve_refish` fails with the wrong-kind error carrying both
the object's actual kind and the offending expression. -/
theorem resolve_refish_wrong_kind_error (repo : Repo) (str : String)
    (rest : List String) (obj : GitObject) (e : PeelError)
    (hfast : repo.dwim str = none ∨
      ∃ t e2, repo.dwim str = some t ∧
        reference_peel repo t .Commit = .error e2)
    (hrev : repo.revparse str = some obj)
    (hkind : obj.kind ≠ ObjectKind.Commit)
    (hpeel : peel repo.store repo.fuel obj .Commit = .error e) :
    resolve_refish repo (.strVec (str :: rest)) =
      .error (.wrongKind obj.kind str) := by
  have hfb := resolve_fallback_wrong_kind repo str obj e hrev hkind hpeel
  rcases hfast with h | ⟨t, e2, h1, h2⟩
  · rw [resolve_refish_of_dwim_none repo str rest h, hfb]
  · rw [resolve_refish_of_peel_err repo str rest t e2 h1 h2, hfb]

/-- Claim C2 witness: the expression "t" resolves to the tree object and
`resolve_refish` reports the wrong-kind error with kind Tree and the
expression. -/
theorem resolve_refish_wrong_kind_error_witness :
    resolve_refish repo0 (.strVec ["t"]) = .error (.wrongKind .Tree "t") :=
  resolve_refish_wrong_kind_error repo0 "t" [] treeObj
    (.badKind .Tree .Commit) (Or.inl rfl) rfl (by decide) rfl

/-- Claim C3: when the fast path fails and the expression lookup also
fails, `resolve_refish` fails with the not-found error carrying the
offending expression. -/
theorem resolve_refish_not_found_error (repo : Repo) (str : String)
    (rest : List String)
    (hfast : repo.dwim str = none ∨
      ∃ t e2, repo.dwim str = some t ∧
        reference_peel repo t .Commit = .error e2)
    (hrev : repo.revparse str = none) :
    resolve_refish repo (.strVec (str :: rest)) = .error (.notFound str) := by
  have hfb := resolve_fallback_not_found repo str hrev
  rcases hfast with h | ⟨t, e2, h1, h2⟩
  · rw [resolve_refish_of_dwim_none repo str rest h, hfb]
  · rw [resolve_refish_of_peel_err repo str rest t e2 h1 h2, hfb]

/-- Claim C3 witness: the expression "nope" names nothing and resolution
fails with the not-found error carrying "nope". -/
theorem resolve_refish_not_found_error_witness :
    resolve_refish repo0 (.strVec ["nope"]) = .error (.notFound "nope") :=
  resolve_refish_not_found_error repo0 "nope" [] (Or.inl rfl) rfl

/-- Claim C4: resolution is a pure read-only function of the pair
(expression, repository snapshot): the state-passing renderings of
`resolve_refish` and `ref_to_commit` leave the repository state exactly
as it was and compute exactly the pure functions of the snapshot. -/
theorem resolution_read_only (x : SEXP) (st : Repo) :
    (resolve_refishS x st).2 = st ∧ (ref_to_commitS x st).2 = st ∧
    (resolve_refishS x st).1 = resolve_refish st x ∧
    (ref_to_commitS x st).1 = ref_to_commit st x := by
  refine ⟨?_, ?_, ?_, ?_⟩ <;> simp [resolve_refishS_eq, ref_to_commitS_eq]

/-- Claim C5 counterexample: on the expression "abc1234^{tree}" (dwim
fails, expression lookup yields the commit's root tree) `resolve_refish`
does not return the tree object; it fails with the wrong-kind error, as
the routine only ever returns commits. -/
theorem peel_suffix_counterexample :
    resolve_refish repo0 (.strVec ["abc1234^{tree}"]) =
      .error (.wrongKind .Tree "abc1234^{tree}") ∧
    resolve_refish repo0 (.strVec ["abc1234^{tree}"]) ≠ .ok treeObj := by
  refine ⟨rfl, ?_⟩
  intro h
  rw [show resolve_refish repo0 (.strVec ["abc1234^{tree}"]) =
      .error (.wrongKind .Tree "abc1234^{tree}") from rfl] at h
  exact Except.noConfusion h

/-- Claim C5 amended: when dwim fails on the expression and the
expression lookup yields a tree-kind object (as a peel-to-tree suffix
produces), `resolve_refish` fails with the wrong-kind error carrying
kind Tree and the expression; the explicit peel suffix does not override
the commit-only result kind. -/
theorem peel_suffix_wrong_kind (repo : Repo) (str : String)
    (rest : List String) (obj : GitObject)
    (hdwim : repo.dwim str = none)
    (hrev : repo.revparse str = some obj)
    (hkind : obj.kind = ObjectKind.Tree) :
    resolve_refish repo (.strVec (str :: rest)) =
      .error (.wrongKind .Tree str) := by
  have hpeel := peel_tree_commit_err repo.store repo.fuel obj hkind
  have hkc : obj.kind ≠ ObjectKind.Commit := by
    rw [hkind]
    decide
  have hfb := resolve_fallback_wrong_kind repo str obj
    (.badKind .Tree .Commit) hrev hkc hpeel
  rw [resolve_refish_of_dwim_none repo str rest hdwim, hfb, hkind]

/-- Claim C5 amended witness: "abc1234^{tree}" fails with the wrong-kind
error carrying Tree and the expression. -/
theorem peel_suffix_wrong_kind_witness :
    resolve_refish repo0 (.strVec ["abc1234^{tree}", "x"]) =
      .error (.wrongKind .Tree "abc1234^{tree}") :=
  peel_suffix_wrong_kind repo0 "abc1234^{tree}" ["x"] treeObj rfl rfl rfl

/-- Claim C6: peeling to Commit is idempotent: re-peeling the result of
a successful peel to Commit returns it unchanged, for any depth bounds. -/
theorem peel_commit_idempotent (store : Nat → Option GitObject)
    (fuel fuel2 : Nat) (obj : GitObject) :
    (peel store fuel obj .Commit).bind
        (fun o => peel store fuel2 o .Commit) =
      peel store fuel obj .Commit := by
  cases h : peel store fuel obj .Commit with
  | error e => rfl
  | ok o =>
    have hk := peel_ok_kind store fuel obj o h
    show peel store fuel2 o .Commit = .ok o
    unfold peel
    simp [hk]

/-- Claim C7 counterexample: the empty expression fails with the
not-found-style error, not a distinguished parse error — the routine's
error repertoire has no parse-error kind at all. -/
theorem empty_expr_counterexample :
    resolve_refish repo0 (.strVec [""]) = .error (.notFound "") := rfl

/-- Claim C7 amended: on the empty expression (which neither name lookup
nor expression lookup accepts), `resolve_refish` fails with the
not-found error carrying the empty expression; no parse-error kind is
distinguished. -/
theorem empty_expr_not_found (repo : Repo) (rest : List String)
    (hdwim : repo.dwim "" = none) (hrev : repo.revparse "" = none) :
    resolve_refish repo (.strVec ("" :: rest)) = .error (.notFound "") := by
  rw [resolve_refish_of_dwim_none repo "" rest hdwim,
    resolve_fallback_not_found repo "" hrev]

/-- Claim C7 amended witness: the concrete repository rejects the empty
expression with the not-found error. -/
theorem empty_expr_not_found_witness :
    resolve_refish repo0 (.strVec ["", "x"]) = .error (.notFound "") :=
  empty_expr_not_found repo0 ["x"] rfl rfl

/-- Claim C8: whenever `resolve_refish` returns normally, the returned
object has kind Commit: every successful path either peeled the dwim
reference to a commit, checked the looked-up object is a commit, or
peeled the looked-up object to a commit. -/
theorem resolve_refish_returns_commit (repo : Repo) (x : SEXP)
    (o : GitObject) (h : resolve_refish repo x = .ok o) :
    o.kind = .Commit := by
  cases x with
  | strVec xs =>
    cases xs with
    | nil => cases h
    | cons str rest =>
      simp only [resolve_refish] at h
      cases hd : repo.dwim str with
      | none =>
        simp only [hd] at h
        exact resolve_fallback_ok_kind repo str o h
      | some t =>
        simp only [hd] at h
        cases hp : reference_peel repo t ObjectKind.Commit with
        | ok obj =>
          simp only [hp] at h
          cases h
          exact reference_peel_ok_kind repo t o hp
        | error e =>
          simp only [hp] at h
          exact resolve_fallback_ok_kind repo str o h
  | intVec xs => cases h
  | nilValue => cases h

/-- Claim C8 witness: "v1" is a tag reference; resolution peels it and
returns the commit, whose kind is Commit. -/
theorem resolve_refish_returns_commit_witness :
    resolve_refish repo0 (.strVec ["v1"]) = .ok commitObj ∧
    commitObj.kind = .Commit :=
  ⟨rfl, resolve_refish_returns_commit repo0 (.strVec ["v1"]) commitObj rfl⟩

/-- Claim C9: over an id-consistent store, a successful `ref_to_commit`
returns a commit whose id equals the id of the object `resolve_refish`
returned for the same input; `ref_to_commit` propagates every
`resolve_refish` error unchanged, and fails with the lookup error
exactly when resolution succeeded but the commit lookup by that id
failed. -/
theorem ref_to_commit_same_id (repo : Repo)
    (hwf : ∀ i o, repo.store i = some o → o.id = i) (x : SEXP) :
    (∀ c, ref_to_commit repo x = .ok c →
        ∃ o, resolve_refish repo x = .ok o ∧ c.id = o.id) ∧
    (∀ e, resolve_refish repo x = .error e →
        ref_to_commit repo x = .error e) ∧
    (∀ o, resolve_refish repo x = .ok o → commit_lookup repo o.id = none →
        ref_to_commit repo x = .error (.lookupFailed o.id)) := by
  refine ⟨?_, ?_, ?_⟩
  · intro c hc
    unfold ref_to_commit at hc
    cases hr : resolve_refish repo x with
    | error e =>
      simp only [hr] at hc
      exact Except.noConfusion hc
    | ok revision =>
      simp only [hr] at hc
      cases hl : commit_lookup repo revision.id with
      | some commit =>
        simp only [hl, Except.ok.injEq] at hc
        refine ⟨revision, rfl, ?_⟩
        rw [← hc]
        exact hwf revision.id commit
          (commit_lookup_store repo revision.id commit hl)
      | none =>
        simp only [hl] at hc
        exact Except.noConfusion hc
  · intro e he
    unfold ref_to_commit
    simp only [he]
  · intro o ho hl
    unfold ref_to_commit
    simp only [ho, hl]

/-- Claim C9 witness: resolving "HEAD" yields the commit with id 1 and
`ref_to_commit` returns a commit with the same id. -/
theorem ref_to_commit_same_id_witness :
    ∃ o, resolve_refish repo0 (.strVec ["HEAD"]) = .ok o ∧
      commitObj.id = o.id :=
  (ref_to_commit_same_id repo0 store0_wf (.strVec ["HEAD"])).1 commitObj rfl

/-- Claim C10: `resolve_refish` depends only on the first element of a
non-empty string-vector input — any further elements are ignored — and
on inputs that are not string vectors or are empty string vectors it
fails with the not-a-string error independently of the repository
state. -/
theorem resolve_refish_first_element_only (repo repo2 : Repo) (s : String)
    (xs ys : List String) :
    resolve_refish repo (.strVec (s :: xs)) =
        resolve_refish repo (.strVec (s :: ys)) ∧
    resolve_refish repo (.strVec []) = .error .notAString ∧
    resolve_refish repo .nilValue = .error .notAString ∧
    (∀ zs : List Int, resolve_refish repo (.intVec zs) =
        .error .notAString) ∧
    resolve_refish repo (.strVec []) = resolve_refish repo2 (.strVec []) ∧
    resolve_refish repo .nilValue = resolve_refish repo2 .nilValue ∧
    (∀ zs : List Int, resolve_refish repo (.intVec zs) =
        resolve_refish repo2 (.intVec zs)) :=
  ⟨rfl, rfl, rfl, fun _ => rfl, rfl, rfl, fun _ => rfl⟩

end Gert
